import Mathlib

/-!
Shallow embedding of the typing-speed-test measurement engine
(`src/utils/typingLogic.js`, `src/utils/textGenerator.js`, and the
`TypingTest` component's event handlers), together with proofs of the
specification claims about it.

Strings are modelled as `List Char`; JavaScript numbers are modelled as
exact rationals (`ℚ`) on the code paths that are guarded against division
by zero, and as the four-way value `JSNum` (finite, +∞, −∞, NaN) on the
one code path (`calculateNetWPM`) where IEEE special values matter.
-/

/-- Floor of a rational, computed on the numerator/denominator pair
(the denominator of a `Rat` is always positive, so `Int.fdiv` is the
mathematical floor). -/
def ratFloor (q : ℚ) : ℤ := q.num.fdiv (q.den : ℤ)

/-- JavaScript `Math.round` on an exact rational: round half toward +∞. -/
def jsRound (q : ℚ) : ℤ := ratFloor (q + 1/2)

/-- `Math.floor(q * n)` coerced to a natural index, as used by
`Math.floor(Math.random() * arr.length)`.  Computed on the
numerator/denominator pair: `q * n = (q.num * n) / q.den` and flooring a
fraction with positive denominator is `Int.fdiv`.  For `0 ≤ q < 1` and
`0 < n` this lands in `[0, n)`. -/
def natIdx (q : ℚ) (n : ℕ) : ℕ := ((q.num * n).fdiv (q.den : ℤ)).toNat

/-- JavaScript `String.prototype.indexOf(' ')`: index of the first space,
`none` when there is no space (JS returns `-1`). -/
def jsIndexOfSpace : List Char → Option ℕ
  | [] => none
  | c :: cs => if c = ' ' then some 0 else (jsIndexOfSpace cs).map (· + 1)

/-- Whitespace recognised by JavaScript `String.prototype.trim`
(restricted to the ASCII whitespace characters that can occur in the
generated corpora and typed input). -/
def isJsSpace (c : Char) : Bool :=
  c = ' ' || c = '\t' || c = '\n' || c = '\r' || c = '\x0b' || c = '\x0c'

/-- JavaScript `String.prototype.trim`: strip whitespace from both ends. -/
def jsTrim (l : List Char) : List Char :=
  ((l.dropWhile isJsSpace).reverse.dropWhile isJsSpace).reverse

/-- JavaScript `Array.prototype.join(' ')` on a list of words. -/
def joinWords : List (List Char) → List Char
  | [] => []
  | [w] => w
  | w :: ws => w ++ ' ' :: joinWords ws

/-- A JavaScript number restricted to the values arising in this code
base: an exact finite rational, the two infinities, or NaN. -/
inductive JSNum where
  | num : ℚ → JSNum
  | posInf : JSNum
  | negInf : JSNum
  | nan : JSNum
deriving DecidableEq, Repr

/-- JavaScript `/` on `JSNum` (IEEE-754 semantics, positive zero only). -/
def jsDiv : JSNum → JSNum → JSNum
  | .nan, _ => .nan
  | _, .nan => .nan
  | .num a, .num b =>
      if b = 0 then (if a = 0 then .nan else if 0 < a then .posInf else .negInf)
      else .num (a / b)
  | .num _, .posInf => .num 0
  | .num _, .negInf => .num 0
  | .posInf, .num b => if b < 0 then .negInf else .posInf
  | .negInf, .num b => if b < 0 then .posInf else .negInf
  | .posInf, .posInf => .nan
  | .posInf, .negInf => .nan
  | .negInf, .posInf => .nan
  | .negInf, .negInf => .nan

/-- JavaScript `-` (binary) on `JSNum`. -/
def jsSub : JSNum → JSNum → JSNum
  | .nan, _ => .nan
  | _, .nan => .nan
  | .num a, .num b => .num (a - b)
  | .num _, .posInf => .negInf
  | .num _, .negInf => .posInf
  | .posInf, .num _ => .posInf
  | .negInf, .num _ => .negInf
  | .posInf, .posInf => .nan
  | .posInf, .negInf => .posInf
  | .negInf, .posInf => .negInf
  | .negInf, .negInf => .nan

/-- JavaScript `*` on `JSNum`. -/
def jsMul : JSNum → JSNum → JSNum
  | .nan, _ => .nan
  | _, .nan => .nan
  | .num a, .num b => .num (a * b)
  | .num a, .posInf => if a = 0 then .nan else if 0 < a then .posInf else .negInf
  | .num a, .negInf => if a = 0 then .nan else if 0 < a then .negInf else .posInf
  | .posInf, .num b => if b = 0 then .nan else if 0 < b then .posInf else .negInf
  | .negInf, .num b => if b = 0 then .nan else if 0 < b then .negInf else .posInf
  | .posInf, .posInf => .posInf
  | .posInf, .negInf => .negInf
  | .negInf, .posInf => .negInf
  | .negInf, .negInf => .posInf

/-- JavaScript `Math.round` on `JSNum`. -/
def jsRoundN : JSNum → JSNum
  | .nan => .nan
  | .posInf => .posInf
  | .negInf => .negInf
  | .num q => .num (jsRound q)

/-- JavaScript `Math.max` on two `JSNum`s (NaN-propagating). -/
def jsMax : JSNum → JSNum → JSNum
  | .nan, _ => .nan
  | _, .nan => .nan
  | .num a, .num b => .num (max a b)
  | .posInf, _ => .posInf
  | _, .posInf => .posInf
  | .negInf, x => x
  | x, .negInf => x

/-- JavaScript `Math.min` on two `JSNum`s (NaN-propagating). -/
def jsMin : JSNum → JSNum → JSNum
  | .nan, _ => .nan
  | _, .nan => .nan
  | .num a, .num b => .num (min a b)
  | .negInf, _ => .negInf
  | _, .negInf => .negInf
  | .posInf, x => x
  | x, .posInf => x

/-- `calculateWPM` from `src/utils/typingLogic.js`: `0` when
`timeElapsed === 0`, otherwise `Math.round((charactersTyped / 5) /
(timeElapsed / 60))`.  The guard makes the division-free of zero
denominators, so the exact-rational model is faithful. -/
def calculateWPM (charactersTyped timeElapsed : ℚ) : ℚ :=
  if timeElapsed = 0 then 0
  else
    let minutes := timeElapsed / 60
    let words := charactersTyped / 5
    (jsRound (words / minutes) : ℚ)

/-- `calculateAccuracy` from `src/utils/typingLogic.js`: `100` when
`totalCharacters === 0`, otherwise
`Math.round((correct / total) * 1000) / 10`. -/
def calculateAccuracy (correctCharacters totalCharacters : ℚ) : ℚ :=
  if totalCharacters = 0 then 100
  else (jsRound ((correctCharacters / totalCharacters) * 1000) : ℚ) / 10

/-- `calculateNetWPM` from `src/utils/typingLogic.js`:
`Math.max(0, Math.round(grossWPM - mistakes / (timeElapsed / 60)))`.
There is no zero-time guard in the source, so the IEEE special values
can arise and the function is modelled over `JSNum`. -/
def calculateNetWPM (grossWPM mistakes timeElapsed : JSNum) : JSNum :=
  let minutes := jsDiv timeElapsed (.num 60)
  let errorPenalty := jsDiv mistakes minutes
  jsMax (.num 0) (jsRoundN (jsSub grossWPM errorPenalty))

/-- Per-position classification of a character, as used by the analyzer
(`correct`, `incorrect`, `missed`, `extra`) and by the live highlighter
(`correct`, `incorrect`, `current`, `pending`). -/
inductive CharState where
  | correct : CharState
  | incorrect : CharState
  | missed : CharState
  | extra : CharState
  | current : CharState
  | pending : CharState
deriving DecidableEq, Repr

/-- The `type` tag of a recorded mistake. -/
inductive MistakeType where
  | substitution : MistakeType
  | insertion : MistakeType
deriving DecidableEq, Repr

/-- One recorded mistake.  `expected` and `typed` are the JavaScript
one-character strings `originalText[i] || ''` / `typedText[i] || ''`,
hence lists of length at most one. -/
structure Mistake where
  position : ℕ
  expected : List Char
  typed : List Char
  type : MistakeType
deriving DecidableEq, Repr

/-- The record returned by `analyzeTypedText`. -/
structure Analysis where
  correctCharacters : ℕ
  incorrectCharacters : ℕ
  totalCharacters : ℕ
  mistakes : List Mistake
  characterStates : List CharState
deriving DecidableEq, Repr

/-- One iteration of the `for` loop of `analyzeTypedText`
(`src/utils/typingLogic.js`, lines 62-94), at loop index `i`. -/
def analyzeStep (originalText typedText : List Char) (a : Analysis) (i : ℕ) : Analysis :=
  let originalChar : List Char := (originalText[i]?).elim [] ([·])
  let typedChar : List Char := (typedText[i]?).elim [] ([·])
  if i < typedText.length ∧ i < originalText.length then
    if originalChar = typedChar then
      { a with correctCharacters := a.correctCharacters + 1,
               characterStates := a.characterStates ++ [CharState.correct] }
    else
      { a with incorrectCharacters := a.incorrectCharacters + 1,
               characterStates := a.characterStates ++ [CharState.incorrect],
               mistakes := a.mistakes ++
                 [{ position := i, expected := originalChar, typed := typedChar,
                    type := MistakeType.substitution }] }
  else if typedText.length ≤ i then
    { a with characterStates := a.characterStates ++ [CharState.missed] }
  else
    { a with incorrectCharacters := a.incorrectCharacters + 1,
             characterStates := a.characterStates ++ [CharState.extra],
             mistakes := a.mistakes ++
               [{ position := i, expected := [], typed := typedChar,
                  type := MistakeType.insertion }] }

/-- `analyzeTypedText` from `src/utils/typingLogic.js` (lines 51-97):
fold the loop body over `0 .. max(len(original), len(typed)) - 1`,
starting from the initial record whose `totalCharacters` is
`typedText.length`. -/
def analyzeTypedText (originalText typedText : List Char) : Analysis :=
  (List.range (max originalText.length typedText.length)).foldl
    (analyzeStep originalText typedText)
    { correctCharacters := 0, incorrectCharacters := 0,
      totalCharacters := typedText.length, mistakes := [], characterStates := [] }

/-- `getCharacterStates` from `src/utils/typingLogic.js` (lines 106-127). -/
def getCharacterStates (originalText typedText : List Char) (currentPosition : ℕ) :
    List CharState :=
  (List.range originalText.length).map fun i =>
    if i < typedText.length then
      (if originalText.getD i ' ' = typedText.getD i ' ' then CharState.correct
       else CharState.incorrect)
    else if i = currentPosition then CharState.current
    else CharState.pending

/-- The live-statistics snapshot returned by `calculateRealTimeStats`.
`progress` is a `JSNum` because the source divides by
`originalText.length` without a zero guard. -/
structure LiveStats where
  wpm : ℚ
  accuracy : ℚ
  correctCharacters : ℕ
  incorrectCharacters : ℕ
  totalCharacters : ℕ
  mistakes : ℕ
  progress : JSNum
deriving DecidableEq, Repr

/-- `calculateRealTimeStats` from `src/utils/typingLogic.js`
(lines 136-150). -/
def calculateRealTimeStats (originalText typedText : List Char) (timeElapsed : ℚ) :
    LiveStats :=
  let analysis := analyzeTypedText originalText typedText
  { wpm := calculateWPM analysis.correctCharacters timeElapsed
    accuracy := calculateAccuracy analysis.correctCharacters analysis.totalCharacters
    correctCharacters := analysis.correctCharacters
    incorrectCharacters := analysis.incorrectCharacters
    totalCharacters := analysis.totalCharacters
    mistakes := analysis.mistakes.length
    progress := jsMin (.num 100)
      (jsMul (jsDiv (.num typedText.length) (.num originalText.length)) (.num 100)) }

/-- The reason reported by `checkEndConditions`. -/
inductive Reason where
  | time : Reason
  | completed : Reason
deriving DecidableEq, Repr

/-- The record returned by `checkEndConditions`. -/
structure EndCheck where
  shouldEnd : Bool
  reason : Option Reason
  timeUp : Bool
  textCompleted : Bool
deriving DecidableEq, Repr

/-- `checkEndConditions` from `src/utils/typingLogic.js` (lines 160-171).
`typedText.trim() === originalText.substring(0, typedText.length).trim()`
is modelled with `jsTrim` and `List.take` (JS `substring` clamps the end
index at the string length, exactly as `take` does). -/
def checkEndConditions (originalText typedText : List Char)
    (timeLimit timeElapsed : ℚ) : EndCheck :=
  let timeUp : Bool := timeElapsed ≥ timeLimit
  let textCompleted : Bool :=
    typedText.length ≥ originalText.length &&
    jsTrim typedText = jsTrim (originalText.take typedText.length)
  { shouldEnd := timeUp || textCompleted
    reason := if timeUp then some Reason.time
              else if textCompleted then some Reason.completed
              else none
    timeUp := timeUp
    textCompleted := textCompleted }

/-- `generateRandomWords` from `src/utils/textGenerator.js` (lines 27-34):
draw `wordCount` words independently from `commonWords` (draws taken from
the random stream `rand` starting at position `k`) and join them with
single spaces. -/
def generateRandomWords (commonWords : List (List Char)) (rand : ℕ → ℚ)
    (k wordCount : ℕ) : List Char :=
  joinWords ((List.range wordCount).map fun j =>
    commonWords.getD (natIdx (rand (k + j)) commonWords.length) [])

/-- The `do { randomIndex = ... } while (usedSentences.has(randomIndex))`
rejection loop of `generateRandomSentences`, bounded by `fuel` rejection
steps (the JavaScript loop re-draws until it finds an unused index; any
`fuel` at least the number of rejections reproduces it).  Returns the
chosen index and the next position in the random stream. -/
def pickUnused (rand : ℕ → ℚ) (n : ℕ) (used : List ℕ) (k fuel : ℕ) : ℕ × ℕ :=
  match fuel with
  | 0 => (natIdx (rand k) n, k + 1)
  | fuel + 1 =>
      let idx := natIdx (rand k) n
      if idx ∈ used then pickUnused rand n used (k + 1) fuel else (idx, k + 1)

/-- The `while` loop of `generateRandomSentences`
(`src/utils/textGenerator.js`, lines 45-59), bounded by `fuel`
iterations.  `used` is the `usedSentences` set (kept as a list of the
indices added, which are distinct whenever the rejection loop is given
enough fuel). -/
def sentLoop (sentences : List (List Char)) (rand : ℕ → ℚ)
    (fuel k : ℕ) (used : List ℕ) (text : List Char) (targetLength : ℕ) : List Char :=
  match fuel with
  | 0 => text
  | fuel + 1 =>
      if text.length < targetLength ∧ used.length < sentences.length then
        let (idx, k') := pickUnused rand sentences.length used k fuel
        let s := sentences.getD idx []
        if text.length + s.length + 1 ≤ targetLength + 50 then
          sentLoop sentences rand fuel k' (idx :: used)
            (text ++ (if text = [] then [] else [' ']) ++ s) targetLength
        else text
      else text

/-- `generateRandomSentences` from `src/utils/textGenerator.js`
(lines 41-62): accumulate distinct sentences, then fall back to the
first sentence when nothing was accumulated (`return text || sentences[0]`). -/
def generateRandomSentences (sentences : List (List Char)) (rand : ℕ → ℚ)
    (fuel k targetLength : ℕ) : List Char :=
  let text := sentLoop sentences rand fuel k [] [] targetLength
  if text = [] then sentences.getD 0 [] else text

/-- The `while (text.length < targetLength)` loop of `generateMixedText`
(`src/utils/textGenerator.js`, lines 73-87), bounded by `fuel`
iterations.  Each iteration appends either a batch of 5-14 random words
or one random sentence, toggles `useWords`, and breaks early once the
text exceeds `targetLength + 100`. -/
def mixedLoop (commonWords sentences : List (List Char)) (rand : ℕ → ℚ)
    (fuel k : ℕ) (useWords : Bool) (text : List Char) (targetLength : ℕ) : List Char :=
  match fuel with
  | 0 => text
  | fuel + 1 =>
      if text.length < targetLength then
        let (batch, k') :=
          if useWords then
            let wordCount := natIdx (rand k) 10 + 5
            (generateRandomWords commonWords rand (k + 1) wordCount, k + 1 + wordCount)
          else
            (sentences.getD (natIdx (rand k) sentences.length) [], k + 1)
        let text' := text ++ (if text = [] then [] else [' ']) ++ batch
        if text'.length > targetLength + 100 then text'
        else mixedLoop commonWords sentences rand fuel k' (!useWords) text' targetLength
      else text

/-- The text accumulated by `generateMixedText` before its final
truncation: the initial `useWords` coin flip is `Math.random() > 0.5`
(stream position 0), then the loop consumes the stream from position 1. -/
def mixedAccum (commonWords sentences : List (List Char)) (rand : ℕ → ℚ)
    (fuel targetLength : ℕ) : List Char :=
  mixedLoop commonWords sentences rand fuel 1 (decide (rand 0 > mkRat 1 2)) [] targetLength

/-- The final truncation of `generateMixedText` (line 89 of
`src/utils/textGenerator.js`):
`text.substring(0, targetLength + text.substring(targetLength).indexOf(' '))`.
When no space occurs at or after `targetLength`, `indexOf` yields `-1`
and JS `substring` clamps the negative end index at `0`, which natural
subtraction reproduces. -/
def mixedTruncate (text : List Char) (targetLength : ℕ) : List Char :=
  match jsIndexOfSpace (text.drop targetLength) with
  | some j => text.take (targetLength + j)
  | none => text.take (targetLength - 1)

/-- `generateMixedText` from `src/utils/textGenerator.js` (lines 69-90). -/
def generateMixedText (commonWords sentences : List (List Char)) (rand : ℕ → ℚ)
    (fuel targetLength : ℕ) : List Char :=
  mixedTruncate (mixedAccum commonWords sentences rand fuel targetLength) targetLength

/-- `generateText` from `src/utils/textGenerator.js` (lines 9-20): the
`switch` on the mode string; the `default` arm also generates words. -/
def generateText (commonWords sentences : List (List Char)) (rand : ℕ → ℚ)
    (fuel : ℕ) (mode : List Char) (length : ℕ) : List Char :=
  if mode = "words".toList then generateRandomWords commonWords rand 0 length
  else if mode = "sentences".toList then
    generateRandomSentences sentences rand fuel 0 length
  else if mode = "mixed".toList then
    generateMixedText commonWords sentences rand fuel length
  else generateRandomWords commonWords rand 0 length

/-- The session result built by `handleTestComplete` in the `TypingTest`
component.  The wall-clock `timestamp` and the storage-assigned `id` come
from external clock/storage collaborators and are omitted from the model. -/
structure SessionResult where
  wpm : ℚ
  netWPM : JSNum
  accuracy : ℚ
  mistakes : ℕ
  totalCharacters : ℕ
  correctCharacters : ℕ
  incorrectCharacters : ℕ
  timeElapsed : ℚ
  timeLimit : ℚ
  textMode : List Char
  testText : List Char
  characterStates : List CharState
  mistakeDetails : List Mistake
deriving DecidableEq, Repr

/-- The React state of the `TypingTest` component that the modelled event
handlers read or write, together with the observable session effects:
`savedResults` is the result-store contents and `completeEvents` counts
firings of the `onTestComplete` completion callback.  (Audio cues are
fire-and-forget collaborator effects, not session state, and are not
tracked.) -/
structure TestState where
  testText : List Char
  typedText : List Char
  isActive : Bool
  isPaused : Bool
  isComplete : Bool
  timeElapsed : ℚ
  timeLimit : ℚ
  textMode : List Char
  currentStats : LiveStats
  characterStates : List CharState
  savedResults : List SessionResult
  completeEvents : ℕ
deriving DecidableEq, Repr

/-- `handleTestComplete` from the `TypingTest` component
(`src/components/TypingTest.jsx`, lines 106-156): guarded by
`if (isComplete) return;`, it freezes the elapsed time
(`timeElapsed || timeLimit`), runs the final analysis, builds the
result, saves it, deactivates the session, sets the completion flag and
fires the completion callback. -/
def handleTestComplete (s : TestState) : TestState :=
  if s.isComplete then s
  else
    let finalTimeElapsed := if s.timeElapsed = 0 then s.timeLimit else s.timeElapsed
    let finalStats := calculateRealTimeStats s.testText s.typedText finalTimeElapsed
    let netWPM := calculateNetWPM (.num finalStats.wpm) (.num finalStats.mistakes)
      (.num finalTimeElapsed)
    let analysis := analyzeTypedText s.testText s.typedText
    let result : SessionResult :=
      { wpm := finalStats.wpm
        netWPM := netWPM
        accuracy := finalStats.accuracy
        mistakes := analysis.mistakes.length
        totalCharacters := finalStats.totalCharacters
        correctCharacters := finalStats.correctCharacters
        incorrectCharacters := finalStats.incorrectCharacters
        timeElapsed := finalTimeElapsed
        timeLimit := s.timeLimit
        textMode := s.textMode
        testText := s.testText.take 100 ++
          (if 100 < s.testText.length then "...".toList else [])
        characterStates := getCharacterStates s.testText s.typedText s.typedText.length
        mistakeDetails := analysis.mistakes }
    { s with currentStats := finalStats
             isActive := false
             isComplete := true
             savedResults := s.savedResults ++ [result]
             completeEvents := s.completeEvents + 1 }

/-- `handleInputChange` from the `TypingTest` component
(`src/components/TypingTest.jsx`, lines 275-301): inputs are ignored
unless the session is active, unpaused and incomplete, and the typed
buffer is updated only when the new value fits within the target text
(`if (value.length <= testText.length) setTypedText(value)`).  The
key-press/key-error audio cues are collaborator effects and change no
session state. -/
def handleInputChange (s : TestState) (value : List Char) : TestState :=
  if ¬s.isActive ∨ s.isPaused ∨ s.isComplete then s
  else if value.length ≤ s.testText.length then { s with typedText := value }
  else s

/-- The per-position classification rule as the specification states it:
`correct` when `i` is within both strings and the characters are equal,
`incorrect` when within both and they differ, `missed` when
`i ≥ len(typed)`, and `extra` when `i ≥ len(target)` (with `i` below the
maximum of the two lengths, exactly one case applies). -/
def charStateSpec (target typed : List Char) (i : ℕ) : CharState :=
  if i < typed.length ∧ i < target.length then
    (if target.getD i ' ' = typed.getD i ' ' then CharState.correct
     else CharState.incorrect)
  else if typed.length ≤ i then CharState.missed
  else CharState.extra

/-- The mistake the specification prescribes at position `i`: a
substitution `{position: i, expected: target[i], typed: typed[i]}` at an
`incorrect` position, an insertion `{position: i, expected: '', typed:
typed[i]}` at an `extra` position, and nothing elsewhere. -/
def mistakeSpec (target typed : List Char) (i : ℕ) : Option Mistake :=
  if i < typed.length ∧ i < target.length then
    (if target.getD i ' ' = typed.getD i ' ' then none
     else some { position := i, expected := [target.getD i ' '],
                 typed := [typed.getD i ' '], type := MistakeType.substitution })
  else if typed.length ≤ i then none
  else some { position := i, expected := [], typed := [typed.getD i ' '],
              type := MistakeType.insertion }

/-- The claim that a truncation `res` of an accumulated text `text` does
not split a word: either nothing was cut off, or the first character cut
off is a space (so `res` ends exactly at a word boundary of `text`). -/
def noWordSplit (text res : List Char) : Prop :=
  res.length = text.length ∨ text[res.length]? = some ' '

/-- Modelled from the spec: the corpora module `wordList.js` (the fixed
`commonWords` and `sentences` arrays imported by the text generator) is
not under `src/`.  The spec fixes only that there is a fixed non-empty
word list and a fixed non-empty sentence list, so the generator
definitions take the corpora as parameters and this representative word
list is used for concrete evaluations. -/
def commonWords0 : List (List Char) := ["elephant".toList, "cat".toList]

/-- Modelled from the spec: a representative fixed sentence list (see
`commonWords0`). -/
def sentences0 : List (List Char) :=
  ["The quick brown fox jumps over the lazy dog.".toList]

/-- A concrete random stream for evaluations: `3/4` on the first draw,
`0` afterwards; every draw lies in `[0, 1)` as `Math.random` guarantees. -/
def randA : ℕ → ℚ := fun n => if n = 0 then mkRat 3 4 else 0

/-- A zeroed live-statistics record, as the component initialises it. -/
def statsZero : LiveStats :=
  { wpm := 0, accuracy := 100, correctCharacters := 0, incorrectCharacters := 0,
    totalCharacters := 0, mistakes := 0, progress := .num 0 }

/-- A concrete session state that has already reached completion. -/
def sDone : TestState :=
  { testText := "the cat sat".toList, typedText := "the cat".toList,
    isActive := false, isPaused := false, isComplete := true,
    timeElapsed := 15, timeLimit := 15, textMode := "words".toList,
    currentStats := statsZero, characterStates := [],
    savedResults := [], completeEvents := 1 }

/-- A concrete running session state. -/
def sRun : TestState :=
  { testText := "abc".toList, typedText := "a".toList,
    isActive := true, isPaused := false, isComplete := false,
    timeElapsed := 2, timeLimit := 60, textMode := "words".toList,
    currentStats := statsZero, characterStates := [],
    savedResults := [], completeEvents := 0 }

theorem ratFloor_eq_floor (q : ℚ) : ratFloor q = ⌊q⌋ := by
  rw [Rat.floor_def, ratFloor, Int.fdiv_eq_ediv _ (by exact_mod_cast Nat.zero_le q.den)]

theorem natIdx_lt (q : ℚ) (n : ℕ) (h0 : 0 ≤ q) (h1 : q < 1) (hn : 0 < n) :
    natIdx q n < n := by
  unfold natIdx
  have hden : (0 : ℤ) < (q.den : ℤ) := by exact_mod_cast q.den_pos
  have hnum0 : 0 ≤ q.num := Rat.num_nonneg.mpr h0
  have hnumlt : q.num < (q.den : ℤ) := Rat.lt_one_iff_num_lt_denom.mp h1
  have hn' : (0 : ℤ) < (n : ℤ) := by exact_mod_cast hn
  have hfd : (q.num * (n : ℤ)).fdiv (q.den : ℤ) < (n : ℤ) := by
    rw [Int.fdiv_eq_ediv _ (le_of_lt hden)]
    rw [Int.ediv_lt_iff_lt_mul hden]
    nlinarith
  have hfd0 : 0 ≤ (q.num * (n : ℤ)).fdiv (q.den : ℤ) :=
    Int.fdiv_nonneg (by positivity) (le_of_lt hden)
  omega

theorem getD_mem_of_lt {l : List α} {i : ℕ} (h : i < l.length) (d : α) :
    l.getD i d ∈ l := by
  rw [List.getD_eq_getElem?_getD, List.getElem?_eq_getElem h]
  exact List.getElem_mem h

theorem jsIndexOfSpace_some {l : List Char} {j : ℕ}
    (h : jsIndexOfSpace l = some j) :
    l[j]? = some ' ' ∧ ∀ i, i < j → l[i]? ≠ some ' ' := by
  induction l generalizing j with
  | nil => simp [jsIndexOfSpace] at h
  | cons c cs ih =>
    by_cases hc : c = ' '
    · simp [jsIndexOfSpace, hc] at h
      subst h
      subst hc
      exact ⟨by simp, fun i hi => absurd hi (Nat.not_lt_zero i)⟩
    · simp [jsIndexOfSpace, hc] at h
      obtain ⟨j', hj', rfl⟩ := h
      obtain ⟨h1, h2⟩ := ih hj'
      refine ⟨by simpa using h1, ?_⟩
      intro i hi
      cases i with
      | zero =>
        simp
        intro hcc
        exact hc hcc
      | succ i' =>
        simp
        exact h2 i' (by omega)

theorem joinWords_ne_nil {w : List Char} {ws : List (List Char)}
    (hw : w ≠ []) : joinWords (w :: ws) ≠ [] := by
  cases ws with
  | nil => simpa [joinWords] using hw
  | cons x xs =>
    simp only [joinWords]
    intro hcontra
    exact hw (List.append_eq_nil.mp hcontra).1

theorem charAtList_of_lt {l : List Char} {i : ℕ} (h : i < l.length) :
    (l[i]?).elim [] ([·]) = [l.getD i ' '] := by
  simp [List.getElem?_eq_getElem h, List.getD_eq_getElem?_getD]

theorem analyzeStep_eq (o t : List Char) (a : Analysis) (i : ℕ) :
    analyzeStep o t a i =
      { correctCharacters := a.correctCharacters +
          (if charStateSpec o t i = CharState.correct then 1 else 0),
        incorrectCharacters := a.incorrectCharacters +
          (if charStateSpec o t i = CharState.incorrect ∨
              charStateSpec o t i = CharState.extra then 1 else 0),
        totalCharacters := a.totalCharacters,
        mistakes := a.mistakes ++ (mistakeSpec o t i).toList,
        characterStates := a.characterStates ++ [charStateSpec o t i] } := by
  unfold analyzeStep charStateSpec mistakeSpec
  by_cases h1 : i < t.length ∧ i < o.length
  · simp only [h1, if_true, charAtList_of_lt h1.1, charAtList_of_lt h1.2]
    split_ifs with heq <;> simp_all
  · by_cases h2 : t.length ≤ i
    · simp [h1, h2]
    · have hti : i < t.length := by omega
      simp [h1, h2, charAtList_of_lt hti]

theorem analyzeFold (o t : List Char) (n : ℕ) (a : Analysis) :
    (List.range n).foldl (analyzeStep o t) a =
      { correctCharacters := a.correctCharacters +
          (List.range n).countP (fun i => decide (charStateSpec o t i = CharState.correct)),
        incorrectCharacters := a.incorrectCharacters +
          (List.range n).countP (fun i => decide (charStateSpec o t i = CharState.incorrect ∨
            charStateSpec o t i = CharState.extra)),
        totalCharacters := a.totalCharacters,
        mistakes := a.mistakes ++ (List.range n).filterMap (mistakeSpec o t),
        characterStates := a.characterStates ++ (List.range n).map (charStateSpec o t) } := by
  induction n with
  | zero => simp
  | succ n ih =>
    rw [List.range_succ, List.foldl_append]
    simp only [List.foldl_cons, List.foldl_nil]
    rw [ih, analyzeStep_eq]
    simp [List.countP_append, List.countP_cons, List.filterMap_append,
      List.filterMap_cons, Nat.add_assoc, List.append_assoc, Option.toList]
    cases mistakeSpec o t n <;> rfl

theorem charState_count_point (o t : List Char) (i : ℕ) :
    (if charStateSpec o t i = CharState.correct then 1 else 0) +
      (if charStateSpec o t i = CharState.incorrect ∨
          charStateSpec o t i = CharState.extra then 1 else 0) =
      if i < t.length then 1 else 0 := by
  unfold charStateSpec
  split_ifs <;> simp_all
  omega

theorem countP_correct_add (o t : List Char) (n : ℕ) :
    (List.range n).countP (fun i => decide (charStateSpec o t i = CharState.correct)) +
      (List.range n).countP (fun i => decide (charStateSpec o t i = CharState.incorrect ∨
        charStateSpec o t i = CharState.extra)) =
      (List.range n).countP (fun i => decide (i < t.length)) := by
  induction n with
  | zero => simp
  | succ n ih =>
    rw [List.range_succ]
    simp only [List.countP_append, List.countP_cons, List.countP_nil, Nat.zero_add,
      decide_eq_true_eq]
    have hpt := charState_count_point o t n
    omega

theorem countP_lt_range (k n : ℕ) :
    (List.range n).countP (fun i => decide (i < k)) = min k n := by
  induction n with
  | zero => simp
  | succ n ih =>
    rw [List.range_succ]
    simp only [List.countP_append, List.countP_cons, List.countP_nil, Nat.zero_add,
      decide_eq_true_eq]
    rw [ih]
    by_cases h : n < k
    · simp [h]
      omega
    · simp [h]
      omega

theorem mistakeSpec_isSome (o t : List Char) (i : ℕ) :
    (mistakeSpec o t i).isSome =
      decide (charStateSpec o t i = CharState.incorrect ∨
        charStateSpec o t i = CharState.extra) := by
  unfold mistakeSpec charStateSpec
  split_ifs <;> simp_all

/-- C1: for every target string and every typed string, `analyzeTypedText`
returns a per-position state array of length
`max(len(target), len(typed))` in which each position `i` is classified
by the character-by-character rule (`correct` / `incorrect` / `missed` /
`extra` as stated by `charStateSpec`), and the recorded mistakes are
exactly the substitution records at `incorrect` positions and the
insertion records at `extra` positions (`mistakeSpec`), with `missed`
positions recording none. -/
theorem analyzeTypedText_classification (target typed : List Char) :
    (analyzeTypedText target typed).characterStates.length =
      max target.length typed.length ∧
    (analyzeTypedText target typed).characterStates =
      (List.range (max target.length typed.length)).map (charStateSpec target typed) ∧
    (analyzeTypedText target typed).mistakes =
      (List.range (max target.length typed.length)).filterMap (mistakeSpec target typed) := by
  unfold analyzeTypedText
  rw [analyzeFold]
  simp

/-- C10: for every target string and every typed string, the analysis
satisfies `correctCharacters + incorrectCharacters = totalCharacters =
len(typed)`, and the number of recorded mistakes equals
`incorrectCharacters`. -/
theorem analyzeTypedText_counts (target typed : List Char) :
    (analyzeTypedText target typed).correctCharacters +
        (analyzeTypedText target typed).incorrectCharacters =
      (analyzeTypedText target typed).totalCharacters ∧
    (analyzeTypedText target typed).totalCharacters = typed.length ∧
    (analyzeTypedText target typed).mistakes.length =
      (analyzeTypedText target typed).incorrectCharacters := by
  unfold analyzeTypedText
  rw [analyzeFold]
  refine ⟨?_, rfl, ?_⟩
  · have h1 := countP_correct_add target typed (max target.length typed.length)
    have h2 := countP_lt_range typed.length (max target.length typed.length)
    have h3 : typed.length ≤ max target.length typed.length :=
      le_max_right target.length typed.length
    simp only [Nat.zero_add]
    omega
  · simp only [List.nil_append, List.length_filterMap_eq_countP, Nat.zero_add]
    exact List.countP_congr fun i _ => by
      rw [mistakeSpec_isSome target typed i]

theorem jsRound_eq_floor (q : ℚ) : jsRound q = ⌊q + 1/2⌋ := by
  rw [jsRound, ratFloor_eq_floor]

/-- C2: the end-condition check reports that the session should end
exactly when `elapsed ≥ timeLimit` or the typed text covers the target
and matches it up to trimming; whenever the time condition holds the
reason is `time` (even if completion also holds), and the reason is
`completed` exactly when the time condition is false and the completion
condition is true. -/
theorem checkEndConditions_spec (o t : List Char) (tl te : ℚ) :
    ((checkEndConditions o t tl te).shouldEnd = true ↔
      (tl ≤ te ∨ (o.length ≤ t.length ∧ jsTrim t = jsTrim (o.take t.length)))) ∧
    (tl ≤ te → (checkEndConditions o t tl te).reason = some Reason.time) ∧
    ((checkEndConditions o t tl te).reason = some Reason.completed ↔
      (¬tl ≤ te ∧ o.length ≤ t.length ∧ jsTrim t = jsTrim (o.take t.length))) := by
  unfold checkEndConditions
  by_cases h1 : tl ≤ te <;> by_cases h2 : o.length ≤ t.length <;>
    by_cases h3 : jsTrim t = jsTrim (o.take t.length) <;>
    simp [h1, h2, h3, ge_iff_le, decide_eq_true_eq]

/-- C2 witness: the spec scenario `timeLimit = 15`, `elapsed = 15`,
typed shorter than target reports reason `time`. -/
theorem checkEndConditions_spec_witness :
    (15 : ℚ) ≤ 15 ∧
    (checkEndConditions ("hello world".toList) ("hel".toList) 15 15).reason =
      some Reason.time :=
  ⟨le_refl 15,
    (checkEndConditions_spec ("hello world".toList) ("hel".toList) 15 15).2.1
      (le_refl 15)⟩

/-- C3: `calculateWPM` is `0` at zero elapsed time, otherwise
`round((c / 5) / (t / 60))`; in particular `WPM(0, t) = 0` for `t > 0`,
and the `t = 0` branch never divides by zero. -/
theorem calculateWPM_spec (c t : ℚ) :
    calculateWPM c 0 = 0 ∧
    (t ≠ 0 → calculateWPM c t = (jsRound ((c / 5) / (t / 60)) : ℚ)) ∧
    (0 < t → calculateWPM 0 t = 0) := by
  refine ⟨by simp [calculateWPM], fun h => by simp [calculateWPM, h], fun h => ?_⟩
  have hne : t ≠ 0 := ne_of_gt h
  simp only [calculateWPM, hne, if_false]
  rw [zero_div, zero_div, jsRound_eq_floor]
  norm_num

/-- C3 witness: the spec scenario `WPM(11, 10) = round(13.2) = 13`, and
`WPM(0, 10) = 0`. -/
theorem calculateWPM_spec_witness :
    ((10 : ℚ) ≠ 0 ∧ calculateWPM 11 10 = (jsRound ((11 / 5) / ((10 : ℚ) / 60)) : ℚ)) ∧
    ((0 : ℚ) < 10 ∧ calculateWPM 0 10 = 0) ∧
    calculateWPM 11 10 = 13 := by
  refine ⟨⟨by norm_num, (calculateWPM_spec 11 10).2.1 (by norm_num)⟩,
          ⟨by norm_num, (calculateWPM_spec 0 10).2.2 (by norm_num)⟩, ?_⟩
  rw [(calculateWPM_spec 11 10).2.1 (by norm_num), jsRound_eq_floor]
  norm_num

/-- C4: `calculateAccuracy` is `100` at zero total characters, otherwise
`round((c / n) * 1000) / 10` (a one-decimal percentage); in particular
`Accuracy(t, t) = 100`. -/
theorem calculateAccuracy_spec (c n t : ℚ) :
    calculateAccuracy c 0 = 100 ∧
    (n ≠ 0 → calculateAccuracy c n = (jsRound ((c / n) * 1000) : ℚ) / 10) ∧
    calculateAccuracy t t = 100 := by
  refine ⟨by simp [calculateAccuracy], fun h => by simp [calculateAccuracy, h], ?_⟩
  by_cases ht : t = 0
  · simp [calculateAccuracy, ht]
  · simp only [calculateAccuracy, ht, if_false, div_self ht, one_mul]
    rw [jsRound_eq_floor]
    norm_num

/-- C4 witness: `Accuracy(3, 4) = round(750) / 10 = 75`, and
`Accuracy(7, 7) = 100`. -/
theorem calculateAccuracy_spec_witness :
    ((4 : ℚ) ≠ 0 ∧ calculateAccuracy 3 4 = (jsRound (((3 : ℚ) / 4) * 1000) : ℚ) / 10) ∧
    calculateAccuracy 3 4 = 75 ∧ calculateAccuracy 7 7 = 100 := by
  refine ⟨⟨by norm_num, (calculateAccuracy_spec 3 4 0).2.1 (by norm_num)⟩, ?_,
    (calculateAccuracy_spec 0 0 7).2.2⟩
  rw [(calculateAccuracy_spec 3 4 0).2.1 (by norm_num), jsRound_eq_floor]
  norm_num

/-- C5 (code bug): at `grossWPM = 0`, `mistakes = 0`, `timeElapsed = 0`
the source computes `0 / (0 / 60) = 0 / 0 = NaN`, which propagates
through `Math.round` and `Math.max`, so `calculateNetWPM` returns NaN —
contradicting the claim that the result is always a well-defined finite
number.  (There is no zero-time guard in `calculateNetWPM`, unlike
`calculateWPM`.) -/
theorem calculateNetWPM_nan_at_zero_time :
    calculateNetWPM (JSNum.num 0) (JSNum.num 0) (JSNum.num 0) = JSNum.nan := by
  norm_num [calculateNetWPM, jsDiv, jsSub, jsRoundN, jsMax]

/-- C6: once the session is complete, `handleTestComplete` is a no-op —
it saves no second result, changes no session state, and does not
re-fire the completion callback. -/
theorem handleTestComplete_idempotent (s : TestState) (h : s.isComplete = true) :
    handleTestComplete s = s := by
  simp [handleTestComplete, h]

/-- C6 witness: a concrete completed state is left untouched. -/
theorem handleTestComplete_idempotent_witness :
    sDone.isComplete = true ∧ handleTestComplete sDone = sDone :=
  ⟨rfl, handleTestComplete_idempotent sDone rfl⟩

/-- C7: an input longer than the target text leaves the whole session
state unchanged, and any accepted input keeps the typed buffer no longer
than the target text. -/
theorem handleInputChange_clamp (s : TestState) (value : List Char) :
    (s.testText.length < value.length → handleInputChange s value = s) ∧
    (s.typedText.length ≤ s.testText.length →
      (handleInputChange s value).typedText.length ≤
        (handleInputChange s value).testText.length) := by
  constructor
  · intro h
    unfold handleInputChange
    split_ifs with h1 h2
    · rfl
    · omega
    · rfl
  · intro h
    unfold handleInputChange
    split_ifs with h1 h2
    · exact h
    · simpa using h2
    · exact h

/-- C7 witness: a four-character input against a three-character target
is dropped without any state change. -/
theorem handleInputChange_clamp_witness :
    sRun.testText.length < ("abcd".toList).length ∧
    handleInputChange sRun ("abcd".toList) = sRun :=
  ⟨by decide, (handleInputChange_clamp sRun ("abcd".toList)).1 (by decide)⟩

/-- C8 (refuted): with the representative corpus and a concrete random
stream, the mixed-mode accumulation at target length 42 is five copies of
`elephant` (44 characters) with no space at or after position 42, and the
returned truncation cuts the final word in half — so the returned string
does split a word of the accumulated text. -/
theorem generateMixedText_splits_word :
    generateMixedText commonWords0 sentences0 randA 8 42 =
      "elephant elephant elephant elephant eleph".toList ∧
    ¬noWordSplit (mixedAccum commonWords0 sentences0 randA 8 42)
      (generateMixedText commonWords0 sentences0 randA 8 42) := by
  constructor
  · decide
  · unfold noWordSplit
    decide

/-- C8 (amended): when the accumulated text has a space at or after
position `targetLength`, mixed-mode generation returns the prefix ending
just before the first such space (a word boundary, so no word is split);
when it has none, it returns the accumulated text truncated to
`targetLength - 1` characters, which can split the final word. -/
theorem generateMixedText_truncation (cw sents : List (List Char)) (rand : ℕ → ℚ)
    (fuel L : ℕ) :
    (jsIndexOfSpace ((mixedAccum cw sents rand fuel L).drop L) = none →
      generateMixedText cw sents rand fuel L =
        (mixedAccum cw sents rand fuel L).take (L - 1)) ∧
    (∀ j, jsIndexOfSpace ((mixedAccum cw sents rand fuel L).drop L) = some j →
      generateMixedText cw sents rand fuel L =
        (mixedAccum cw sents rand fuel L).take (L + j) ∧
      (mixedAccum cw sents rand fuel L)[L + j]? = some ' ' ∧
      ∀ p, L ≤ p → p < L + j → (mixedAccum cw sents rand fuel L)[p]? ≠ some ' ') := by
  constructor
  · intro h
    simp only [generateMixedText, mixedTruncate, h]
  · intro j h
    obtain ⟨hsp, hbefore⟩ := jsIndexOfSpace_some h
    refine ⟨by simp only [generateMixedText, mixedTruncate, h], ?_, ?_⟩
    · rw [← List.getElem?_drop]
      exact hsp
    · intro p hLp hpj
      have hne := hbefore (p - L) (by omega)
      rw [List.getElem?_drop] at hne
      have heq : L + (p - L) = p := by omega
      rw [heq] at hne
      exact hne

/-- C8 amended witness: the concrete run from the counterexample lands in
the no-space case and returns the 41-character truncation. -/
theorem generateMixedText_truncation_witness :
    jsIndexOfSpace ((mixedAccum commonWords0 sentences0 randA 8 42).drop 42) = none ∧
    generateMixedText commonWords0 sentences0 randA 8 42 =
      (mixedAccum commonWords0 sentences0 randA 8 42).take (42 - 1) :=
  ⟨by decide,
    (generateMixedText_truncation commonWords0 sentences0 randA 8 42).1 (by decide)⟩

theorem randA_bounds : ∀ i, 0 ≤ randA i ∧ randA i < 1 := by
  intro i
  unfold randA
  split_ifs <;> exact ⟨by decide, by decide⟩

/-- C9 (refuted): words-mode generation with length argument `0` returns
the empty string — there is no fallback in `generateRandomWords`, so the
"always returns a non-empty string" part of the claim fails at length 0. -/
theorem generateText_words_zero_empty :
    generateText commonWords0 sentences0 randA 8 ("words".toList) 0 = [] := by
  decide

/-- C9 (amended): text generation is total, sentences mode always returns
a non-empty string (falling back to the first sentence), words mode
returns a non-empty string for every length of at least 1, and words and
mixed modes return the empty string at length 0. -/
theorem generateText_amended (cw sents : List (List Char)) (rand : ℕ → ℚ) (fuel L : ℕ)
    (hcw : cw ≠ []) (hw : ∀ w ∈ cw, w ≠ []) (hs : sents.getD 0 [] ≠ [])
    (hr : ∀ i, 0 ≤ rand i ∧ rand i < 1) :
    (1 ≤ L → generateText cw sents rand fuel ("words".toList) L ≠ []) ∧
    generateText cw sents rand fuel ("sentences".toList) L ≠ [] ∧
    generateText cw sents rand fuel ("words".toList) 0 = [] ∧
    generateText cw sents rand fuel ("mixed".toList) 0 = [] := by
  have hwords : ∀ N, generateText cw sents rand fuel ("words".toList) N =
      generateRandomWords cw rand 0 N := by
    intro N
    unfold generateText
    rw [if_pos rfl]
  have hsent : generateText cw sents rand fuel ("sentences".toList) L =
      generateRandomSentences sents rand fuel 0 L := by
    unfold generateText
    rw [if_neg (by decide), if_pos rfl]
  have hmix : generateText cw sents rand fuel ("mixed".toList) 0 =
      generateMixedText cw sents rand fuel 0 := by
    unfold generateText
    rw [if_neg (by decide), if_neg (by decide), if_pos rfl]
  refine ⟨?_, ?_, ?_, ?_⟩
  · intro hL
    rw [hwords]
    obtain ⟨m, rfl⟩ : ∃ m, L = m + 1 := ⟨L - 1, by omega⟩
    unfold generateRandomWords
    rw [List.range_succ_eq_map]
    simp only [List.map_cons]
    apply joinWords_ne_nil
    apply hw
    apply getD_mem_of_lt
    exact natIdx_lt _ _ (hr (0 + 0)).1 (hr (0 + 0)).2 (List.length_pos.mpr hcw)
  · rw [hsent]
    unfold generateRandomSentences
    by_cases h : sentLoop sents rand fuel 0 [] [] L = []
    · simp only [h, if_pos]
      simpa using hs
    · simp [h]
  · rw [hwords]
    rfl
  · rw [hmix]
    have haccum : mixedAccum cw sents rand fuel 0 = [] := by
      unfold mixedAccum
      cases fuel with
      | zero => rfl
      | succ f => simp [mixedLoop]
    unfold generateMixedText
    rw [haccum]
    rfl

/-- C9 amended witness: the representative corpora satisfy the
hypotheses, and both words mode at length 5 and sentences mode return
non-empty text, while words mode at length 0 returns the empty string. -/
theorem generateText_amended_witness :
    (commonWords0 ≠ [] ∧ sentences0.getD 0 [] ≠ [] ∧ (1 : ℕ) ≤ 5) ∧
    generateText commonWords0 sentences0 randA 8 ("words".toList) 5 ≠ [] ∧
    generateText commonWords0 sentences0 randA 8 ("sentences".toList) 5 ≠ [] ∧
    generateText commonWords0 sentences0 randA 8 ("mixed".toList) 0 = [] := by
  refine ⟨⟨by decide, by decide, by decide⟩, ?_, ?_, ?_⟩
  · exact (generateText_amended commonWords0 sentences0 randA 8 5 (by decide)
      (by decide) (by decide) randA_bounds).1 (by decide)
  · exact (generateText_amended commonWords0 sentences0 randA 8 5 (by decide)
      (by decide) (by decide) randA_bounds).2.1
  · exact (generateText_amended commonWords0 sentences0 randA 8 0 (by decide)
      (by decide) (by decide) randA_bounds).2.2.2
